import Mathlib

/-!
Verification of the receipt-extraction pipeline of `extract_receipts.py`:
the bounding-box parser (`get_bounding_boxes_from_response`), the geometry
normalizer (lines 50-96 of `extract_receipts`), and the region extractor
(the crop loop of `extract_receipts`).

Numbers coming from the model response are modelled as rationals (Python
floats and ints are exact rationals); Python `int()` is truncation toward
zero.  NumPy slice-bound resolution (negative indices wrap by adding the
axis length, then both bounds are clipped to `[0, n]`) is modelled by
`resolveIdx`, since the crop `image_np[y1-20:y2+20, x1-20:x2+20]` relies
on those semantics.
-/

namespace ReceiptExtract

/-- Decoded JSON tree, the result of `json.loads`.  Object fields are kept
in insertion order, which is Python dict iteration order. -/
inductive JValue : Type where
  | null : JValue
  | bool (b : Bool) : JValue
  | num (q : Rat) : JValue
  | str (s : String) : JValue
  | arr (xs : List JValue) : JValue
  | obj (kvs : List (String × JValue)) : JValue

/-- Python `key in data` / `data[key]` on a decoded object: the first
binding of the key (keys of a decoded JSON object are unique). -/
def jlookup (kvs : List (String × JValue)) (k : String) : Option JValue :=
  (kvs.find? (fun p => p.1 == k)).map Prod.snd

/-- Python `isinstance(value, list) and len(value) > 0`. -/
def isNonEmptyArr : JValue → Bool
  | JValue.arr xs => !xs.isEmpty
  | _ => false

/-- Python `len()` on a decoded JSON value: defined for sequences, strings
and mappings; a number, boolean or null has no length and raises
`TypeError`. -/
def pyLen : JValue → Option Nat
  | JValue.arr xs => some xs.length
  | JValue.str s => some s.length
  | JValue.obj kvs => some kvs.length
  | _ => none

/-- The structure dispatch of `get_bounding_boxes_from_response`
(lines 201-222): a list is returned as-is; a dict is probed for
`bounding_boxes`, then `receipts`, then its first non-empty list value;
anything else yields the empty list.  The debug f-strings at lines 206
and 209 eagerly evaluate `len()` on the value of the winning key before
returning it, so a number, boolean or null value there raises `TypeError`
instead of being returned; that uncaught-here exception is modelled as
`none`. -/
def dispatchDecoded (data : JValue) : Option JValue :=
  match data with
  | JValue.arr xs => some (JValue.arr xs)
  | JValue.obj kvs =>
    match jlookup kvs "bounding_boxes" with
    | some v => if (pyLen v).isSome then some v else none
    | none =>
      match jlookup kvs "receipts" with
      | some v => if (pyLen v).isSome then some v else none
      | none =>
        match kvs.find? (fun p => isNonEmptyArr p.2) with
        | some p => some p.2
        | none => some (JValue.arr [])
  | _ => some (JValue.arr [])

/-- The whole of `get_bounding_boxes_from_response` (lines 170-232).
The regex search for a fenced ```json block is abstracted as `findBlock`
(returning the inner text when a block is found) and `json.loads` as
`decode` (returning `none` on `JSONDecodeError`); both are parameters
because the claims quantify over their outcomes, not their mechanics.
An exception escaping the dispatch (the `TypeError` of lines 206/209) is
caught by the outer handler at line 229, which returns the empty list. -/
def get_bounding_boxes_from_response (findBlock : String → Option String)
    (decode : String → Option JValue) (response_content : String) : JValue :=
  let json_str := (findBlock response_content).getD response_content
  let json_str := json_str.trim
  match decode json_str with
  | some data => (dispatchDecoded data).getD (JValue.arr [])
  | none => JValue.arr []

/-- Python `int()` on an exact number: truncation toward zero. -/
def ratTrunc (q : Rat) : Int :=
  Int.tdiv q.num (q.den : Int)

/-- The coordinate-branch of `extract_receipts` (lines 65-77), before
integer conversion: a length-4 sequence `(x1, y1, a, b)` is reinterpreted
as origin+size when `a < x1 or b < y1`; a length-8 sequence is the four
vertices of a quadrilateral, reduced to its axis-aligned bounding
rectangle; any other length is rejected. -/
def rawBox (coordinates : List Rat) : Option (Rat × Rat × Rat × Rat) :=
  match coordinates with
  | [x1, y1, x2, y2] =>
    if x2 < x1 ∨ y2 < y1 then some (x1, y1, x1 + x2, y1 + y2)
    else some (x1, y1, x2, y2)
  | [a1, a2, b1, b2, c1, c2, d1, d2] =>
    some (min (min (min a1 b1) c1) d1, min (min (min a2 b2) c2) d2,
          max (max (max a1 b1) c1) d1, max (max (max a2 b2) c2) d2)
  | _ => none

/-- Clamping to image bounds and the validity check of `extract_receipts`
(lines 82-92): `x1 = max(0, x1)`, `y1 = max(0, y1)`, `x2 = min(width, x2)`,
`y2 = min(height, y2)`, then reject when `x1 >= x2 or y1 >= y2`. -/
def clampCheck (width height : Int) (x1 y1 x2 y2 : Int) :
    Option (Int × Int × Int × Int) :=
  if max 0 x1 ≥ min width x2 ∨ max 0 y1 ≥ min height y2 then none
  else some (max 0 x1, max 0 y1, min width x2, min height y2)

/-- Geometry normalization of one coordinate sequence (lines 65-92):
branch on length, truncate to integers, clamp to the image, reject
degenerate boxes. -/
def normalize (width height : Int) (coordinates : List Rat) :
    Option (Int × Int × Int × Int) :=
  (rawBox coordinates).bind (fun b =>
    clampCheck width height (ratTrunc b.1) (ratTrunc b.2.1)
      (ratTrunc b.2.2.1) (ratTrunc b.2.2.2))

/-- The source raster: width, height and a pixel at every coordinate
(`image_np` after channel conversion; the pixel type is abstract since
BGR/RGB conversion is a per-pixel bijection irrelevant to the claims). -/
structure Image (α : Type) where
  width : Int
  height : Int
  pixel : Int → Int → α

/-- NumPy resolution of one slice bound on an axis of length `n`: a
negative bound has `n` added, then the result is clipped to `[0, n]`. -/
def resolveIdx (n i : Int) : Int :=
  if i < 0 then max (n + i) 0 else min i n

/-- The integers from `lo` (inclusive) to `hi` (exclusive). -/
def intRange (lo hi : Int) : List Int :=
  (List.range (hi - lo).toNat).map (fun k => lo + (k : Int))

/-- The crop `image_np[y1-20:y2+20, x1-20:x2+20]` (line 100): a fixed
20-pixel pad on every side, the padded bounds resolved by NumPy slicing
semantics, as a list of pixel rows. -/
def cropOf (img : Image α) (x1 y1 x2 y2 : Int) : List (List α) :=
  let r1 := resolveIdx img.height (y1 - 20)
  let r2 := resolveIdx img.height (y2 + 20)
  let c1 := resolveIdx img.width (x1 - 20)
  let c2 := resolveIdx img.width (x2 + 20)
  (intRange r1 r2).map (fun y => (intRange c1 c2).map (fun x => img.pixel x y))

/-- Python `cropped.size == 0`: the crop has no rows or no columns. -/
def cropIsEmpty (c : List (List α)) : Bool :=
  c.isEmpty || c.all List.isEmpty

/-- One region descriptor from the parsed model response, per the shapes
recognized at lines 50-61: a dict with a `coordinates`, `bbox` or
`bbox_2d` key, a bare list, or anything else (discarded). -/
inductive Descriptor : Type where
  | coords (cs : List Rat) : Descriptor
  | bboxKey (cs : List Rat) : Descriptor
  | bbox2d (cs : List Rat) : Descriptor
  | bare (cs : List Rat) : Descriptor
  | other : Descriptor

/-- The coordinate extraction of lines 50-61: every recognized shape
yields its coordinate sequence, an unrecognized shape is skipped. -/
def coordsOf : Descriptor → Option (List Rat)
  | Descriptor.coords cs => some cs
  | Descriptor.bboxKey cs => some cs
  | Descriptor.bbox2d cs => some cs
  | Descriptor.bare cs => some cs
  | Descriptor.other => none

/-- One iteration of the extraction loop (lines 45-116): extract the
coordinates, normalize, crop with the 20-pixel pad, skip when the crop is
empty, otherwise append the crop. -/
def processDescriptor (img : Image α) (d : Descriptor) : Option (List (List α)) :=
  match coordsOf d with
  | none => none
  | some cs =>
    match normalize img.width img.height cs with
    | none => none
    | some (x1, y1, x2, y2) =>
      let c := cropOf img x1 y1 x2 y2
      if cropIsEmpty c then none else some c

/-- `extract_receipts` over one already-loaded image (lines 43-119): the
loop appends the crop of every accepted descriptor, in input order,
skipping every rejected one. -/
def extract_receipts (img : Image α) (bounding_boxes : List Descriptor) :
    List (List (List α)) :=
  bounding_boxes.filterMap (processDescriptor img)

/-- A concrete 100x100 image with distinct pixel values. -/
def img100 : Image Int :=
  { width := 100, height := 100, pixel := fun x y => x + 1000 * y }

/-- Helper: a descriptor list on which every iteration succeeds contributes
exactly its length to the extraction output. -/
theorem length_filterMap_of_forall_isSome {α β : Type} (f : α → Option β) :
    ∀ (l : List α), (∀ d ∈ l, (f d).isSome = true) →
      (l.filterMap f).length = l.length := by
  intro l
  induction l with
  | nil => intro _; rfl
  | cons a t ih =>
    intro hall
    have ha : (f a).isSome = true := hall a (List.mem_cons_self a t)
    obtain ⟨b, hb⟩ := Option.isSome_iff_exists.mp ha
    have ht : ∀ d ∈ t, (f d).isSome = true :=
      fun d hd => hall d (List.mem_cons_of_mem a hd)
    simp [List.filterMap_cons, hb, ih ht]

/-- Helper: the first entry of a list satisfying a predicate, when every
every entry before it fails it. -/
theorem findFirstMatchingEntry {α : Type} (p : α → Bool) :
    ∀ (l1 : List α) (x : α) (l2 : List α), p x = true →
      (∀ y ∈ l1, p y = false) → (l1 ++ x :: l2).find? p = some x := by
  intro l1
  induction l1 with
  | nil => intro x l2 hx _; simp [List.find?_cons, hx]
  | cons a t ih =>
    intro x l2 hx hall
    have ha : p a = false := hall a (List.mem_cons_self a t)
    have ht : ∀ y ∈ t, p y = false :=
      fun y hy => hall y (List.mem_cons_of_mem a hy)
    simp [List.find?_cons, ha, ih x l2 hx ht]

/-- Claim C1: the source crops `image_np[y1-20:y2+20, x1-20:x2+20]` without
clamping the padded bounds.  For the box (0,0,50,50) accepted by
normalization in a 100x100 image, NumPy resolves the start bound -20 to
row/column 80, the slice from 80 to 70 is empty, and the box is skipped:
the crop does not span rows and columns 0 through 69 as claimed, it does
not exist at all. -/
theorem c1_pad_wraps_to_empty_crop :
    normalize 100 100 [0, 0, 50, 50] = some (0, 0, 50, 50) ∧
    resolveIdx 100 (0 - 20) = 80 ∧
    resolveIdx 100 (50 + 20) = 70 ∧
    cropOf img100 0 0 50 50 = [] ∧
    extract_receipts img100 [Descriptor.bare [0, 0, 50, 50]] = [] :=
  ⟨rfl, rfl, rfl, rfl, rfl⟩

/-- Claim C2: a 4-number sequence (x1, y1, a, b) is reinterpreted as the
offset box (x1, y1, x1+a, y1+b) exactly when a < x1 or b < y1, and is the
corner box (x1, y1, a, b) otherwise; in particular [100,100,20,20]
normalizes to the box (100,100,120,120). -/
theorem c2_four_number_disambiguation :
    (∀ x1 y1 a b : Rat,
      rawBox [x1, y1, a, b] =
        some (x1, y1,
          if a < x1 ∨ b < y1 then x1 + a else a,
          if a < x1 ∨ b < y1 then y1 + b else b)) ∧
    normalize 200 200 [100, 100, 20, 20] = some (100, 100, 120, 120) := by
  constructor
  · intro x1 y1 a b
    by_cases h : a < x1 ∨ b < y1 <;> simp [rawBox, h]
  · norm_num [normalize, rawBox, clampCheck, ratTrunc]

/-- Claim C3: an 8-number sequence is reduced to the axis-aligned bounding
rectangle of its four vertices, min of the xs and ys to max of the xs and
ys; in particular [10,20,110,20,110,80,10,80] normalizes to the box
(10,20,110,80). -/
theorem c3_eight_number_bounding_rectangle :
    (∀ a1 a2 b1 b2 c1 c2 d1 d2 : Rat,
      rawBox [a1, a2, b1, b2, c1, c2, d1, d2] =
        some (min (min (min a1 b1) c1) d1, min (min (min a2 b2) c2) d2,
              max (max (max a1 b1) c1) d1, max (max (max a2 b2) c2) d2)) ∧
    rawBox [10, 20, 110, 20, 110, 80, 10, 80] = some (10, 20, 110, 80) ∧
    normalize 200 100 [10, 20, 110, 20, 110, 80, 10, 80] =
      some (10, 20, 110, 80) := by
  refine ⟨fun a1 a2 b1 b2 c1 c2 d1 d2 => rfl, ?_, ?_⟩
  · norm_num [rawBox]
  · norm_num [normalize, rawBox, clampCheck, ratTrunc]

/-- Claim C4: every box accepted by normalization satisfies
0 <= x1 < x2 <= width and 0 <= y1 < y2 <= height; a box degenerate after
clamping is rejected, never cropped. -/
theorem c4_normalized_box_within_bounds (w h : Int) (cs : List Rat)
    (x1 y1 x2 y2 : Int) (hn : normalize w h cs = some (x1, y1, x2, y2)) :
    0 ≤ x1 ∧ x1 < x2 ∧ x2 ≤ w ∧ 0 ≤ y1 ∧ y1 < y2 ∧ y2 ≤ h := by
  unfold normalize at hn
  cases hrb : rawBox cs with
  | none => rw [hrb] at hn; simp at hn
  | some b =>
    rw [hrb] at hn
    simp only [Option.some_bind] at hn
    unfold clampCheck at hn
    split at hn
    · simp at hn
    · rename_i hcond
      push_neg at hcond
      simp only [Option.some.injEq, Prod.mk.injEq] at hn
      obtain ⟨e1, e2, e3, e4⟩ := hn
      subst e1
      subst e2
      subst e3
      subst e4
      exact ⟨le_max_left 0 _, hcond.1, min_le_left w _,
             le_max_left 0 _, hcond.2, min_le_left h _⟩

/-- Witness for C4 at the concrete box [30,30,50,50] in a 100x100 image. -/
theorem c4_witness :
    normalize 100 100 [30, 30, 50, 50] = some (30, 30, 50, 50) ∧
    (0 ≤ (30 : Int) ∧ (30 : Int) < 50 ∧ (50 : Int) ≤ 100 ∧
     0 ≤ (30 : Int) ∧ (30 : Int) < 50 ∧ (50 : Int) ≤ 100) :=
  ⟨rfl, c4_normalized_box_within_bounds 100 100 [30, 30, 50, 50] 30 30 50 50 rfl⟩

/-- Claim C5, refuted as stated: the parser does not return every present
value under the winning key.  For the mapping with `bounding_boxes` bound
to the number 5, the debug f-string at line 206 calls `len(5)`, the
`TypeError` is caught by the outer handler at line 229, and the parser
returns the empty list, not the value 5. -/
theorem c5_counterexample :
    dispatchDecoded (JValue.obj [("bounding_boxes", JValue.num 5)]) = none ∧
    get_bounding_boxes_from_response (fun _ => none)
      (fun _ => some (JValue.obj [("bounding_boxes", JValue.num 5)]))
      "irrelevant" = JValue.arr [] ∧
    JValue.arr [] ≠ JValue.num 5 :=
  ⟨rfl, rfl, fun h => JValue.noConfusion h⟩

/-- Claim C5 as amended: on a decoded mapping the parser checks the keys
in priority order `bounding_boxes` then `receipts` and the first key
present wins; its value is returned when it has a length (a sequence, a
string or a mapping), so a mapping with both keys returns the
`bounding_boxes` value, while a number, boolean or null under the winning
key raises `TypeError` in the debug logging and the parser yields empty
instead.  With neither key present, the first non-empty list value in
iteration order is returned, else the empty list. -/
theorem c5_parser_key_priority (kvs : List (String × JValue)) :
    (∀ v, jlookup kvs "bounding_boxes" = some v → (pyLen v).isSome = true →
      dispatchDecoded (JValue.obj kvs) = some v) ∧
    (∀ v, jlookup kvs "bounding_boxes" = some v → pyLen v = none →
      dispatchDecoded (JValue.obj kvs) = none) ∧
    (jlookup kvs "bounding_boxes" = none →
      ∀ v, jlookup kvs "receipts" = some v → (pyLen v).isSome = true →
        dispatchDecoded (JValue.obj kvs) = some v) ∧
    (jlookup kvs "bounding_boxes" = none →
      ∀ v, jlookup kvs "receipts" = some v → pyLen v = none →
        dispatchDecoded (JValue.obj kvs) = none) ∧
    (jlookup kvs "bounding_boxes" = none → jlookup kvs "receipts" = none →
      ∀ (l1 : List (String × JValue)) (k : String) (ys : List JValue)
        (l2 : List (String × JValue)),
        kvs = l1 ++ (k, JValue.arr ys) :: l2 → ys ≠ [] →
        (∀ p ∈ l1, isNonEmptyArr p.2 = false) →
        dispatchDecoded (JValue.obj kvs) = some (JValue.arr ys)) ∧
    (jlookup kvs "bounding_boxes" = none → jlookup kvs "receipts" = none →
      (∀ p ∈ kvs, isNonEmptyArr p.2 = false) →
      dispatchDecoded (JValue.obj kvs) = some (JValue.arr [])) := by
  refine ⟨?_, ?_, ?_, ?_, ?_, ?_⟩
  · intro v hv hlen
    simp [dispatchDecoded, hv, hlen]
  · intro v hv hlen
    simp [dispatchDecoded, hv, hlen]
  · intro hb v hv hlen
    simp [dispatchDecoded, hb, hv, hlen]
  · intro hb v hv hlen
    simp [dispatchDecoded, hb, hv, hlen]
  · intro hb hr l1 k ys l2 hkvs hys hl1
    have hfind : kvs.find? (fun p => isNonEmptyArr p.2) = some (k, JValue.arr ys) := by
      rw [hkvs]
      exact findFirstMatchingEntry _ l1 (k, JValue.arr ys) l2
        (by simp [isNonEmptyArr, hys]) hl1
    simp [dispatchDecoded, hb, hr, hfind]
  · intro hb hr hall
    have hfind : kvs.find? (fun p => isNonEmptyArr p.2) = none :=
      List.find?_eq_none.mpr (fun p hp => by simp [hall p hp])
    simp [dispatchDecoded, hb, hr, hfind]

/-- Witness for C5: a mapping holding both keys, with list values, returns
the value under `bounding_boxes`. -/
theorem c5_witness :
    jlookup [("bounding_boxes", JValue.arr [JValue.num 1]),
             ("receipts", JValue.arr [JValue.num 2])] "bounding_boxes" =
      some (JValue.arr [JValue.num 1]) ∧
    (pyLen (JValue.arr [JValue.num 1])).isSome = true ∧
    dispatchDecoded (JValue.obj [("bounding_boxes", JValue.arr [JValue.num 1]),
                                 ("receipts", JValue.arr [JValue.num 2])]) =
      some (JValue.arr [JValue.num 1]) :=
  ⟨rfl, rfl, (c5_parser_key_priority
    [("bounding_boxes", JValue.arr [JValue.num 1]),
     ("receipts", JValue.arr [JValue.num 2])]).1 (JValue.arr [JValue.num 1]) rfl rfl⟩

/-- Claim C6: the parser never raises to its caller; every failure mode
yields the empty list: an undecodable payload, a decoded scalar (null,
boolean, number or string), and the `TypeError` raised by the eager
`len()` of lines 206/209 when the winning key holds a number, boolean or
null, which the outer handler of line 229 turns into the empty list. -/
theorem c6_parser_failure_yields_empty (findBlock : String → Option String)
    (decode : String → Option JValue) (s : String) :
    (decode (((findBlock s).getD s).trim) = none →
      get_bounding_boxes_from_response findBlock decode s = JValue.arr []) ∧
    (decode (((findBlock s).getD s).trim) = some JValue.null →
      get_bounding_boxes_from_response findBlock decode s = JValue.arr []) ∧
    (∀ b, decode (((findBlock s).getD s).trim) = some (JValue.bool b) →
      get_bounding_boxes_from_response findBlock decode s = JValue.arr []) ∧
    (∀ q, decode (((findBlock s).getD s).trim) = some (JValue.num q) →
      get_bounding_boxes_from_response findBlock decode s = JValue.arr []) ∧
    (∀ t, decode (((findBlock s).getD s).trim) = some (JValue.str t) →
      get_bounding_boxes_from_response findBlock decode s = JValue.arr []) ∧
    (∀ kvs v, decode (((findBlock s).getD s).trim) = some (JValue.obj kvs) →
      jlookup kvs "bounding_boxes" = some v → pyLen v = none →
      get_bounding_boxes_from_response findBlock decode s = JValue.arr []) ∧
    (∀ kvs v, decode (((findBlock s).getD s).trim) = some (JValue.obj kvs) →
      jlookup kvs "bounding_boxes" = none → jlookup kvs "receipts" = some v →
      pyLen v = none →
      get_bounding_boxes_from_response findBlock decode s = JValue.arr []) := by
  refine ⟨?_, ?_, fun b => ?_, fun q => ?_, fun t => ?_, fun kvs v => ?_, fun kvs v => ?_⟩ <;>
    (intro h; try intro hb) <;> (try intro hr) <;> (try intro hl) <;>
    simp_all [get_bounding_boxes_from_response, dispatchDecoded]

/-- Witness for C6 on a concrete undecodable response. -/
theorem c6_witness :
    get_bounding_boxes_from_response (fun _ => none) (fun _ => none)
      "this is not structured data" = JValue.arr [] :=
  (c6_parser_failure_yields_empty (fun _ => none) (fun _ => none)
    "this is not structured data").1 rfl

/-- Claim C7: extraction is order-preserving over the input descriptors and
skips a rejected descriptor without aborting: with exactly one invalid
descriptor among otherwise valid ones, the output is the two valid
segments in order and has length N-1. -/
theorem c7_batch_skips_invalid_descriptor {α : Type} (img : Image α)
    (l1 l2 : List Descriptor) (bad : Descriptor)
    (hbad : processDescriptor img bad = none)
    (hok : ∀ d ∈ l1 ++ l2, (processDescriptor img d).isSome = true) :
    extract_receipts img (l1 ++ bad :: l2) =
      extract_receipts img l1 ++ extract_receipts img l2 ∧
    (extract_receipts img (l1 ++ bad :: l2)).length = l1.length + l2.length := by
  have heq : extract_receipts img (l1 ++ bad :: l2) =
      extract_receipts img l1 ++ extract_receipts img l2 := by
    simp [extract_receipts, List.filterMap_append, List.filterMap_cons, hbad]
  refine ⟨heq, ?_⟩
  rw [heq]
  have h1 : ∀ d ∈ l1, (processDescriptor img d).isSome = true :=
    fun d hd => hok d (List.mem_append_left l2 hd)
  have h2 : ∀ d ∈ l2, (processDescriptor img d).isSome = true :=
    fun d hd => hok d (List.mem_append_right l1 hd)
  simp [extract_receipts,
    length_filterMap_of_forall_isSome (processDescriptor img) l1 h1,
    length_filterMap_of_forall_isSome (processDescriptor img) l2 h2]

/-- Witness for C7: a batch of three descriptors whose middle one is
degenerate yields the two valid crops, in order. -/
theorem c7_witness :
    processDescriptor img100 (Descriptor.bare [3, 3, 3, 3]) = none ∧
    extract_receipts img100 [Descriptor.bare [30, 30, 50, 50],
        Descriptor.bare [3, 3, 3, 3], Descriptor.coords [25, 25, 60, 60]] =
      extract_receipts img100 [Descriptor.bare [30, 30, 50, 50]] ++
        extract_receipts img100 [Descriptor.coords [25, 25, 60, 60]] ∧
    (extract_receipts img100 [Descriptor.bare [30, 30, 50, 50],
        Descriptor.bare [3, 3, 3, 3], Descriptor.coords [25, 25, 60, 60]]).length = 2 := by
  have h := c7_batch_skips_invalid_descriptor img100
    [Descriptor.bare [30, 30, 50, 50]] [Descriptor.coords [25, 25, 60, 60]]
    (Descriptor.bare [3, 3, 3, 3]) rfl
    (by intro d hd
        simp only [List.cons_append, List.nil_append, List.mem_cons,
          List.not_mem_nil, or_false] at hd
        rcases hd with h | h <;> (subst h; rfl))
  exact ⟨rfl, h.1, h.2⟩

/-- Claim C8: extraction depends only on the dimensions and pixel content
of the source image and on the descriptor list; two images equal on those
produce the same sequence of crops, pixel for pixel. -/
theorem c8_extraction_deterministic (img1 img2 : Image Int)
    (ds : List Descriptor) (hw : img1.width = img2.width)
    (hh : img1.height = img2.height)
    (hp : ∀ x y, img1.pixel x y = img2.pixel x y) :
    extract_receipts img1 ds = extract_receipts img2 ds := by
  obtain ⟨w1, h1, p1⟩ := img1
  obtain ⟨w2, h2, p2⟩ := img2
  simp only at hw hh
  subst hw
  subst hh
  have hpp : p1 = p2 := funext fun x => funext fun y => hp x y
  subst hpp
  rfl

/-- Witness for C8 at a concrete image and batch. -/
theorem c8_witness :
    extract_receipts img100 [Descriptor.bare [30, 30, 50, 50]] =
      extract_receipts img100 [Descriptor.bare [30, 30, 50, 50]] :=
  c8_extraction_deterministic img100 img100 [Descriptor.bare [30, 30, 50, 50]]
    rfl rfl (fun _ _ => rfl)

/-- Claim C9: extraction returns at most as many receipts as it was given
descriptors: each loop iteration appends at most one crop. -/
theorem c9_at_most_one_crop_per_descriptor {α : Type} (img : Image α)
    (ds : List Descriptor) :
    (extract_receipts img ds).length ≤ ds.length :=
  List.length_filterMap_le (processDescriptor img) ds

/-- Claim C10: a 4-number sequence whose second pair equals the first, such
as [10,10,10,10], is treated as a corner box (strict comparison), is
degenerate, and is rejected for every image: it never yields a crop. -/
theorem c10_equal_pair_is_corner_and_rejected (x y : Rat) (w h : Int)
    (img : Image Int) :
    rawBox [x, y, x, y] = some (x, y, x, y) ∧
    normalize w h [x, y, x, y] = none ∧
    processDescriptor img (Descriptor.bare [x, y, x, y]) = none := by
  have hraw : rawBox [x, y, x, y] = some (x, y, x, y) := by
    simp [rawBox]
  have hnorm : ∀ (w' h' : Int), normalize w' h' [x, y, x, y] = none := by
    intro w' h'
    simp only [normalize, hraw, Option.some_bind]
    unfold clampCheck
    rw [if_pos]
    exact Or.inl (le_trans (min_le_right w' (ratTrunc x)) (le_max_right 0 (ratTrunc x)))
  refine ⟨hraw, hnorm w h, ?_⟩
  simp [processDescriptor, coordsOf, hnorm]

end ReceiptExtract
